import Mathlib

/-!
Verification of the DNS record management tool (`aliyun_ddns_domain_selector.py`)
against its natural-language specification.

Strings from the Python source are modelled as Lean `String`s; character-level
reasoning (the regex-based validators) works on `List Char` via `String.data`.
The source's patterns are anchored (`^...$`) and built from alternations of
fixed-width character classes, so each pattern's core language is embedded as
an executable Boolean function over the dot/colon-separated decomposition of
the input. Python's `re.match` lets `$` also match just before a single
trailing newline; the `pyMatch` combinator adds exactly that case on top of
each core language. The version pattern's `\d` is embedded as the ASCII
digits `[0-9]`; the source's `\d` also matches non-ASCII Unicode decimal
digits, which this development does not enumerate — the one statement this
affects (C5) is therefore scoped to tags of ASCII characters.
-/

/-- Character class `[0-9]` of the source's regular expressions
(code points 48–57). -/
def isDigitChar (c : Char) : Bool := 48 ≤ c.toNat && c.toNat ≤ 57

/-- Character class `[0-9a-fA-F]` of the IPv6 regular expression. -/
def isHexChar (c : Char) : Bool :=
  (48 ≤ c.toNat && c.toNat ≤ 57) ||
  (97 ≤ c.toNat && c.toNat ≤ 102) ||
  (65 ≤ c.toNat && c.toNat ≤ 70)

/-- Split a character list at every occurrence of `sep` (the decomposition a
fully anchored `(X sep){k} X` regular expression induces, and the semantics of
Python's `str.split`). Always returns at least one group. -/
def splitOnChar (sep : Char) : List Char → List (List Char)
  | [] => [[]]
  | c :: rest =>
    if c = sep then
      [] :: splitOnChar sep rest
    else
      match splitOnChar sep rest with
      | [] => [[c]]
      | g :: gs => (c :: g) :: gs

/-- Join groups with a separator character (inverse of `splitOnChar`). -/
def joinWith (sep : Char) : List (List Char) → List Char
  | [] => []
  | [g] => g
  | g :: g2 :: gs => g ++ sep :: joinWith sep (g2 :: gs)

/-- Alternative `25[0-5]` of the IPv4 octet pattern. -/
def match250to255 : List Char → Bool
  | [a, b, c] => a.toNat == 50 && b.toNat == 53 && (48 ≤ c.toNat && c.toNat ≤ 53)
  | _ => false

/-- Alternative `2[0-4][0-9]` of the IPv4 octet pattern. -/
def match200to249 : List Char → Bool
  | [a, b, c] => a.toNat == 50 && (48 ≤ b.toNat && b.toNat ≤ 52) && isDigitChar c
  | _ => false

/-- Alternative `[01]?[0-9][0-9]?` of the IPv4 octet pattern, by length of the
matched segment. -/
def matchShort : List Char → Bool
  | [a] => isDigitChar a
  | [a, b] => ((a.toNat == 48 || a.toNat == 49) && isDigitChar b) ||
              (isDigitChar a && isDigitChar b)
  | [a, b, c] => (a.toNat == 48 || a.toNat == 49) && isDigitChar b && isDigitChar c
  | _ => false

/-- One dot-separated segment of the IPv4 pattern
`(25[0-5]|2[0-4][0-9]|[01]?[0-9][0-9]?)`. -/
def matchOctet (g : List Char) : Bool :=
  match250to255 g || match200to249 g || matchShort g

/-- Language of the anchored IPv4 pattern
`^((25[0-5]|2[0-4][0-9]|[01]?[0-9][0-9]?)\.){3}(25[0-5]|2[0-4][0-9]|[01]?[0-9][0-9]?)$`:
exactly four dot-separated groups, each matching the octet alternation
(none of whose alternatives contains a dot). -/
def ipv4Chars (l : List Char) : Bool :=
  (splitOnChar '.' l).length == 4 && (splitOnChar '.' l).all matchOctet

/-- Python `re.match` of an anchored `^...$` pattern: the core language
matches the whole string, or — because `$` also matches just before a single
trailing newline — the whole string minus one final `'\n'`. -/
def pyMatch (core : List Char → Bool) (l : List Char) : Bool :=
  core l || ((l.getLast? == some '\n') && core l.dropLast)

/-- `DNSManagerUI.is_valid_ipv4` (source lines 1166–1168): `pattern.match`
with the `$`-before-trailing-newline semantics of Python's `re`. -/
def is_valid_ipv4 (ip : String) : Bool := pyMatch ipv4Chars ip.data

/-- One colon-separated group of the IPv6 pattern: `[0-9a-fA-F]{1,4}`. -/
def matchHextet (g : List Char) : Bool :=
  decide (1 ≤ g.length) && decide (g.length ≤ 4) && g.all isHexChar

/-- Language of the anchored IPv6 pattern
`^([0-9a-fA-F]{1,4}:){7}[0-9a-fA-F]{1,4}$`: exactly eight colon-separated
groups of one to four hex digits. -/
def ipv6Chars (l : List Char) : Bool :=
  (splitOnChar ':' l).length == 8 && (splitOnChar ':' l).all matchHextet

/-- `DNSManagerUI.is_valid_ipv6` (source lines 1170–1172): `pattern.match`
with the `$`-before-trailing-newline semantics of Python's `re`. -/
def is_valid_ipv6 (ip : String) : Bool := pyMatch ipv6Chars ip.data

/-- Record-type inference of `DNSManagerUI.set_dns_record` (source line 1187):
`"A" if is_valid_ipv4(ip) else "AAAA" if is_valid_ipv6(ip) else None`. -/
def classify (ip : String) : Option String :=
  if is_valid_ipv4 ip then some "A"
  else if is_valid_ipv6 ip then some "AAAA"
  else none

/-- `CURRENT_VERSION` constant (source line 24). -/
def CURRENT_VERSION : String := "v2.0.0"

/-- Decimal value of a digit string. -/
def digitsVal (g : List Char) : Nat :=
  g.foldl (fun acc c => 10 * acc + (c.toNat - 48)) 0

/-- Python's `int()` on the component strings that reach it here: it ignores
surrounding whitespace around the digits (so `int("3\n") = 3` for the group
a trailing-newline tag produces). Sign handling and non-ASCII digits never
reach this call through the validated formats and are not modelled. -/
def intVal (g : List Char) : Nat :=
  digitsVal (((g.dropWhile Char.isWhitespace).reverse.dropWhile
    Char.isWhitespace).reverse)

/-- The comparison loop of `UpdateCheckThread.is_new_version` (source lines
74–79): `for l, c in zip(latest, current): if l > c: return True
elif l < c: return False` and `return False` after the loop (`zip` stops at
the shorter list). -/
def isNewList : List Nat → List Nat → Bool
  | l :: ls, c :: cs =>
    if c < l then true
    else if l < c then false
    else isNewList ls cs
  | _, _ => false

/-- `latest[1:].split('.')` mapped through `int` (source lines 71–72). -/
def parseVersionNums (s : List Char) : List Nat :=
  (splitOnChar '.' (s.drop 1)).map intVal

/-- `UpdateCheckThread.is_new_version` (source lines 70–79). -/
def is_new_version (latest current : List Char) : Bool :=
  isNewList (parseVersionNums latest) (parseVersionNums current)

/-- Core language of the version pattern `v\d+\.\d+\.\d+` as a full-string
match with ASCII digits: a leading `v` followed by three dot-separated
nonempty digit groups. This is also the strict form `vMAJOR.MINOR.PATCH`
the specification describes. -/
def versionCore (s : List Char) : Bool :=
  match s with
  | 'v' :: rest =>
    (splitOnChar '.' rest).length == 3 &&
      (splitOnChar '.' rest).all (fun g => !g.isEmpty && g.all isDigitChar)
  | _ => false

/-- `re.match(r'^v\d+\.\d+\.\d+$', ...)` of source line 54: the core
language under Python's `$`-before-trailing-newline semantics (`\d`
restricted to the ASCII digits, see the file header). -/
def versionPatternOk (s : List Char) : Bool :=
  pyMatch versionCore s

/-- Abstract outcome of the HTTP fetch in `UpdateCheckThread.run`: a response
with a status code and the `tag_name` field, or one of the exception paths. -/
inductive HttpResult where
  | success (statusCode : Nat) (tagName : List Char)
  | timeoutErr
  | requestErr (e : List Char)
  | otherErr (e : List Char)
deriving DecidableEq

/-- The three signals `UpdateCheckThread` can emit: `update_available`,
`no_update`, `check_failed` (source lines 40–42). -/
inductive CheckOutcome where
  | updateAvailable (v : List Char)
  | noUpdate
  | checkFailed (msg : List Char)
deriving DecidableEq

/-- Message for a non-200 status code (source line 48). -/
def statusFailMsg (code : Nat) : List Char :=
  "请求失败，状态码: ".data ++ (Nat.repr code).data

/-- Message for a malformed version tag (source line 55). -/
def invalidFormatMsg (tag : List Char) : List Char :=
  "获取的版本格式无效: ".data ++ tag

/-- Message for a request timeout (source line 64). -/
def timeoutMsg : List Char := "连接超时，请检查网络".data

/-- Message for other request exceptions (source line 66). -/
def requestErrMsg (e : List Char) : List Char := "网络请求错误: ".data ++ e

/-- Message for any other exception (source line 68). -/
def otherErrMsg (e : List Char) : List Char := "检查更新失败: ".data ++ e

/-- `UpdateCheckThread.run` (source lines 44–68), parameterised by the version
comparator so that independence from the comparator on the invalid-format path
is expressible. -/
def runWith (cmp : List Char → List Char → Bool) (r : HttpResult) : CheckOutcome :=
  match r with
  | HttpResult.success code tag =>
    if code ≠ 200 then CheckOutcome.checkFailed (statusFailMsg code)
    else if !(versionPatternOk tag) then CheckOutcome.checkFailed (invalidFormatMsg tag)
    else if cmp tag CURRENT_VERSION.data then CheckOutcome.updateAvailable tag
    else CheckOutcome.noUpdate
  | HttpResult.timeoutErr => CheckOutcome.checkFailed timeoutMsg
  | HttpResult.requestErr e => CheckOutcome.checkFailed (requestErrMsg e)
  | HttpResult.otherErr e => CheckOutcome.checkFailed (otherErrMsg e)

/-- `UpdateCheckThread.run` with the source's comparator `is_new_version`. -/
def updateCheckRun : HttpResult → CheckOutcome := runWith is_new_version

/-- A validated version string `vMAJOR.MINOR.PATCH` assembled from its three
component digit groups. -/
def verChars (a b c : List Char) : List Char :=
  'v' :: joinWith '.' [a, b, c]

/-- A nonempty all-digit component group, as `\d+` produces. -/
def DigitGroup (g : List Char) : Prop :=
  g ≠ [] ∧ g.all isDigitChar = true

instance (g : List Char) : Decidable (DigitGroup g) :=
  inferInstanceAs (Decidable (_ ∧ _))

/-- One DNS resource record as held by the provider (the fields the vendor
list responses carry and the tool reads: `DomainName`, `RR`, `Type`, `Value`,
`RecordId`, `Status`). -/
structure ProvRecord where
  domainName : String
  rr : String
  rtype : String
  value : String
  recordId : String
  status : String
deriving DecidableEq

/-- The record dictionaries `AliyunDNSClient.get_domain_records` builds
(source lines 159–166). -/
structure DisplayRecord where
  full_domain : String
  rr : String
  rtype : String
  value : String
  record_id : String
  status : String
deriving DecidableEq

/-- One remote mutating call issued through the vendor client. -/
inductive RemoteCall where
  | updateCall (recordId rr rtype value : String)
  | addCall (domainName rr rtype value : String)
  | statusCall (recordId status : String)
  | deleteCall (recordId : String)
deriving DecidableEq

/-- Result of one worker-thread operation: the mutating calls it issued in
order, the provider state afterwards, the message returned to the log, and the
record list emitted on `records_signal`. -/
structure OpResult where
  calls : List RemoteCall
  finalState : List ProvRecord
  message : String
  delivered : List DisplayRecord

/-- `f"{sub}.{main}" if sub != '@' else main` (source lines 128 and 158). -/
def fullSubDomain (sub main : String) : String :=
  if sub == "@" then main else sub ++ "." ++ main

/-- Modelled from the spec: the provider's `DescribeSubDomainRecords` call
(§6 `FindRecord(fullSubDomain, type)`) returns the records whose full
subdomain name and type match the query, in provider list order. -/
def describeSubDomainRecords (state : List ProvRecord) (subDomainName rtype : String) :
    List ProvRecord :=
  state.filter (fun r => fullSubDomain r.rr r.domainName == subDomainName && r.rtype == rtype)

/-- The response handling of `AliyunDNSClient.get_record_id` (source lines
137–139): if `TotalCount > 0` return `Record[0]['RecordId']`, else `None`. -/
def recordIdFromResponse (resp : List ProvRecord) : Option String :=
  resp.head?.map (fun r => r.recordId)

/-- `AliyunDNSClient.get_record_id` (source lines 126–141). -/
def get_record_id (state : List ProvRecord) (main_domain sub_domain record_type : String) :
    Option String :=
  recordIdFromResponse
    (describeSubDomainRecords state (fullSubDomain sub_domain main_domain) record_type)

/-- Modelled from the spec: the provider's `DescribeDomainRecords` call
(§6 `ListRecords(mainDomain)`) returns the records of the queried domain, and
may include non-A/AAAA records. -/
def describeDomainRecords (state : List ProvRecord) (main : String) : List ProvRecord :=
  state.filter (fun r => r.domainName == main)

/-- `AliyunDNSClient.get_domain_records` (source lines 143–167): keep only
records of type `A` or `AAAA` and decorate each with its derived full domain. -/
def get_domain_records (state : List ProvRecord) (main_domain : String) : List DisplayRecord :=
  ((describeDomainRecords state main_domain).filter
      (fun r => r.rtype == "A" || r.rtype == "AAAA")).map
    (fun r =>
      { full_domain := fullSubDomain r.rr main_domain
        rr := r.rr
        rtype := r.rtype
        value := r.value
        record_id := r.recordId
        status := r.status })

/-- Modelled from the spec: the provider's `UpdateDomainRecord` call (§6
`UpdateRecord(recordId, rr, type, value)`) rewrites the fields of the record
with the given id. -/
def updateRecordState (state : List ProvRecord) (rid rr rtype value : String) :
    List ProvRecord :=
  state.map (fun r =>
    if r.recordId == rid then { r with rr := rr, rtype := rtype, value := value } else r)

/-- Modelled from the spec: the provider's `AddDomainRecord` call (§6
`CreateRecord(mainDomain, rr, type, value)`) appends a record under a fresh
provider-assigned id, enabled by default. -/
def addRecordState (state : List ProvRecord) (freshId main rr rtype value : String) :
    List ProvRecord :=
  state ++ [{ domainName := main, rr := rr, rtype := rtype, value := value,
              recordId := freshId, status := "ENABLE" }]

/-- Modelled from the spec: the provider's `SetDomainRecordStatus` call (§6
`SetStatus(recordId, status)`) stores the given status on the record with the
given id. -/
def setStatusState (state : List ProvRecord) (rid status : String) : List ProvRecord :=
  state.map (fun r => if r.recordId == rid then { r with status := status } else r)

/-- Modelled from the spec: the provider's `DeleteDomainRecord` call (§6
`DeleteRecord(recordId)`) removes the record with the given id. -/
def deleteState (state : List ProvRecord) (rid : String) : List ProvRecord :=
  state.filter (fun r => !(r.recordId == rid))

/-- Python truthiness of the optional record id: `if record_id:` is false for
both `None` and the empty string. -/
def pyTruthy (s : Option String) : Bool := !(s.getD "" == "")

/-- The worker body `set_record_func` of `DNSManagerUI.set_dns_record`
(source lines 1202–1217): query the record id, update if truthy else add,
then re-fetch and emit the domain's record list. -/
def set_record_func (state : List ProvRecord) (freshId main_domain sub_domain ip_address
    record_type : String) : OpResult :=
  let rid? := get_record_id state main_domain sub_domain record_type
  if pyTruthy rid? then
    let rid := rid?.getD ""
    let s2 := updateRecordState state rid sub_domain record_type ip_address
    { calls := [RemoteCall.updateCall rid sub_domain record_type ip_address]
      finalState := s2
      message := "已更新 " ++ sub_domain ++ "." ++ main_domain ++ " 的" ++ record_type ++
                 "记录为 " ++ ip_address
      delivered := get_domain_records s2 main_domain }
  else
    let s2 := addRecordState state freshId main_domain sub_domain record_type ip_address
    { calls := [RemoteCall.addCall main_domain sub_domain record_type ip_address]
      finalState := s2
      message := "已添加 " ++ sub_domain ++ "." ++ main_domain ++ " 的" ++ record_type ++
                 "记录为 " ++ ip_address
      delivered := get_domain_records s2 main_domain }

/-- `DNSManagerUI.set_dns_record` (source lines 1174–1222): empty-input
checks, the `'@'` default for a blank subdomain, the record-type inference,
and the launch of `set_record_func`; `none` means no worker was started and
no remote call made. -/
def set_dns_record (state : List ProvRecord) (freshId main_domain subInput ip_address :
    String) : Option OpResult :=
  if main_domain == "" then none
  else if ip_address == "" then none
  else
    let sub_domain := if subInput == "" then "@" else subInput
    match classify ip_address with
    | some record_type => some (set_record_func state freshId main_domain sub_domain
        ip_address record_type)
    | none => none

/-- The worker body `toggle_func` of `DNSManagerUI.toggle_record_status`
(source lines 1100–1108). -/
def toggle_func (state : List ProvRecord) (record_id status main_domain : String) : OpResult :=
  let s2 := setStatusState state record_id status
  { calls := [RemoteCall.statusCall record_id status]
    finalState := s2
    message := "解析记录已成功" ++ (if status == "disable" then "暂停" else "启用")
    delivered := get_domain_records s2 main_domain }

/-- The worker body `delete_func` of `DNSManagerUI.delete_record`
(source lines 1146–1154). -/
def delete_func (state : List ProvRecord) (record_id main_domain domainLabel : String) :
    OpResult :=
  let s2 := deleteState state record_id
  { calls := [RemoteCall.deleteCall record_id]
    finalState := s2
    message := "解析记录 " ++ domainLabel ++ " 已成功删除"
    delivered := get_domain_records s2 main_domain }

/-- The status argument the table buttons wire into `toggle_record_status`
(source lines 1039 and 1057): the pause button of an enabled record passes
the lowercase string `'disable'`, the enable button of a paused record passes
`'ENABLE'`. -/
def statusArgForRecord (r : DisplayRecord) : String :=
  if r.status == "ENABLE" then "disable" else "ENABLE"

/-- Claim-side reading of the C2 segment language: a nonempty decimal digit
string denoting a value in [0,255], with no bound on how many digits (so
`0255` qualifies: it denotes 255). -/
def ipv4ClaimSegOk (g : List Char) : Bool :=
  !g.isEmpty && g.all isDigitChar && decide (digitsVal g ≤ 255)

/-- Claim-side reading of the C2 accepted language: four dot-separated decimal
segments each denoting a value in [0,255]. -/
def ipv4ClaimLang (l : List Char) : Bool :=
  (splitOnChar '.' l).length == 4 && (splitOnChar '.' l).all ipv4ClaimSegOk

/-- Amended segment language: a decimal digit string of one to three digits
denoting a value in [0,255] (the octet alternation's exact language). -/
def ipv4SpecSegOk (g : List Char) : Bool :=
  !g.isEmpty && decide (g.length ≤ 3) && g.all isDigitChar && decide (digitsVal g ≤ 255)

/-- Amended accepted language for C2: four dot-separated segments of one to
three digits, each denoting a value in [0,255]. -/
def ipv4AmendedLang (l : List Char) : Bool :=
  (splitOnChar '.' l).length == 4 && (splitOnChar '.' l).all ipv4SpecSegOk

/-- No leading zero: a multi-digit segment may not start with `0`. -/
def noLeadZero : List Char → Bool
  | c :: _ :: _ => !(c.toNat == 48)
  | _ => true

/-- A segment of a canonical dotted-decimal IPv4 form: the canonical decimal
representation of a value in [0,255] (digits, nonempty, no leading zero
unless the segment is exactly `0`). -/
def canonSeg (g : List Char) : Bool :=
  g.all isDigitChar && !g.isEmpty && decide (digitsVal g ≤ 255) && noLeadZero g

/-- Canonical dotted-decimal IPv4 forms (for C10). -/
def isCanonicalIPv4 (l : List Char) : Bool :=
  (splitOnChar '.' l).length == 4 && (splitOnChar '.' l).all canonSeg

/-- A one-record provider state for the C7 freshness demonstration. -/
def demoStateC7 : List ProvRecord :=
  [{ domainName := "example.com", rr := "www", rtype := "A", value := "1.2.3.4",
     recordId := "id1", status := "ENABLE" }]

/-- A one-record provider state matching `www.example.com`/`A` (for C1). -/
def demoStateC1 : List ProvRecord :=
  [{ domainName := "example.com", rr := "www", rtype := "A", value := "203.0.113.9",
     recordId := "R1", status := "ENABLE" }]

/-- A provider state with two records matching `www.example.com`/`A`
(for C6). -/
def demoStateC6 : List ProvRecord :=
  [{ domainName := "example.com", rr := "www", rtype := "A", value := "1.1.1.1",
     recordId := "R1", status := "ENABLE" },
   { domainName := "example.com", rr := "www", rtype := "A", value := "2.2.2.2",
     recordId := "R2", status := "ENABLE" }]

theorem splitOnChar_ne_nil (sep : Char) (l : List Char) : splitOnChar sep l ≠ [] := by
  induction l with
  | nil => simp [splitOnChar]
  | cons c rest ih =>
    simp only [splitOnChar]
    split
    · exact List.cons_ne_nil _ _
    · split
      · exact List.cons_ne_nil _ _
      · exact List.cons_ne_nil _ _

theorem splitOnChar_not_mem (sep : Char) (l : List Char) (h : sep ∉ l) :
    splitOnChar sep l = [l] := by
  induction l with
  | nil => rfl
  | cons c rest ih =>
    have hc : ¬ c = sep := fun he => h (he ▸ List.mem_cons_self c rest)
    have hr : sep ∉ rest := fun hm => h (List.mem_cons_of_mem _ hm)
    simp only [splitOnChar, if_neg hc, ih hr]

theorem splitOnChar_append_sep (sep : Char) (g t : List Char) (h : sep ∉ g) :
    splitOnChar sep (g ++ sep :: t) = g :: splitOnChar sep t := by
  induction g with
  | nil => simp [splitOnChar]
  | cons c g ih =>
    have hc : ¬ c = sep := fun he => h (he ▸ List.mem_cons_self c g)
    have hg : sep ∉ g := fun hm => h (List.mem_cons_of_mem _ hm)
    simp only [List.cons_append, splitOnChar, if_neg hc, List.append_eq, ih hg]

theorem splitOnChar_joinWith (sep : Char) :
    ∀ gs : List (List Char), gs ≠ [] → (∀ g ∈ gs, sep ∉ g) →
      splitOnChar sep (joinWith sep gs) = gs
  | [], h, _ => absurd rfl h
  | [g], _, hs => by
    simp only [joinWith]
    exact splitOnChar_not_mem sep g (hs g (List.mem_singleton_self g))
  | g :: g2 :: gs, _, hs => by
    simp only [joinWith]
    rw [splitOnChar_append_sep sep g _ (hs g (List.mem_cons_self g _))]
    rw [splitOnChar_joinWith sep (g2 :: gs) (List.cons_ne_nil _ _)
      (fun x hx => hs x (List.mem_cons_of_mem _ hx))]

theorem joinWith_splitOnChar (sep : Char) (l : List Char) :
    joinWith sep (splitOnChar sep l) = l := by
  induction l with
  | nil => rfl
  | cons c rest ih =>
    simp only [splitOnChar]
    by_cases hc : c = sep
    · rw [if_pos hc]
      cases h : splitOnChar sep rest with
      | nil => exact absurd h (splitOnChar_ne_nil sep rest)
      | cons g gs =>
        rw [h] at ih
        simp only [joinWith, List.nil_append]
        rw [ih, hc]
    · rw [if_neg hc]
      cases h : splitOnChar sep rest with
      | nil => exact absurd h (splitOnChar_ne_nil sep rest)
      | cons g gs =>
        rw [h] at ih
        cases gs with
        | nil =>
          simp only [joinWith] at ih ⊢
          rw [ih]
        | cons g2 gs' =>
          simp only [joinWith, List.cons_append] at ih ⊢
          rw [ih]

theorem length_splitOnChar (sep : Char) (l : List Char) :
    (splitOnChar sep l).length = l.count sep + 1 := by
  induction l with
  | nil => simp [splitOnChar]
  | cons c rest ih =>
    simp only [splitOnChar]
    by_cases hc : c = sep
    · rw [if_pos hc, hc]
      simp only [List.length_cons, List.count_cons_self, ih]
    · rw [if_neg hc]
      have hcount : (c :: rest).count sep = rest.count sep :=
        List.count_cons_of_ne (fun he => hc he.symm) rest
      cases h : splitOnChar sep rest with
      | nil => exact absurd h (splitOnChar_ne_nil sep rest)
      | cons g gs =>
        rw [h] at ih
        simp only [List.length_cons] at ih ⊢
        rw [hcount]
        omega

theorem mem_joinWith (sep : Char) {c : Char} :
    ∀ gs : List (List Char), c ∈ joinWith sep gs → c = sep ∨ ∃ g ∈ gs, c ∈ g
  | [], h => absurd h (List.not_mem_nil c)
  | [g], h => Or.inr ⟨g, List.mem_singleton_self g, h⟩
  | g :: g2 :: gs, h => by
    simp only [joinWith] at h
    rcases List.mem_append.mp h with h1 | h2
    · exact Or.inr ⟨g, List.mem_cons_self g _, h1⟩
    · rcases List.mem_cons.mp h2 with h3 | h4
      · exact Or.inl h3
      · rcases mem_joinWith sep (g2 :: gs) h4 with h5 | ⟨g', hg', hcg'⟩
        · exact Or.inl h5
        · exact Or.inr ⟨g', List.mem_cons_of_mem _ hg', hcg'⟩

theorem digitsVal_foldl_acc (l : List Char) : ∀ acc : Nat,
    l.foldl (fun a c => 10 * a + (c.toNat - 48)) acc =
      acc * 10 ^ l.length + digitsVal l := by
  induction l with
  | nil => intro acc; simp [digitsVal]
  | cons c t ih =>
    intro acc
    simp only [List.foldl_cons, digitsVal, List.length_cons]
    rw [ih (10 * acc + (c.toNat - 48)), ih (10 * 0 + (c.toNat - 48))]
    ring

theorem digitsVal_cons (c : Char) (t : List Char) :
    digitsVal (c :: t) = (c.toNat - 48) * 10 ^ t.length + digitsVal t := by
  show (c :: t).foldl (fun a x => 10 * a + (x.toNat - 48)) 0 = _
  simp only [List.foldl_cons]
  rw [digitsVal_foldl_acc t (10 * 0 + (c.toNat - 48))]
  ring

theorem matchOctet_eq_specSegOk (g : List Char) : matchOctet g = ipv4SpecSegOk g := by
  match g with
  | [] => rfl
  | [a] =>
    apply Bool.eq_iff_iff.mpr
    simp only [matchOctet, match250to255, match200to249, matchShort, ipv4SpecSegOk,
      isDigitChar, digitsVal, List.foldl, List.isEmpty_cons, List.all_cons, List.all_nil,
      List.length_cons, List.length_nil, Bool.or_eq_true, Bool.and_eq_true,
      Bool.not_eq_true', decide_eq_true_eq, beq_iff_eq, Bool.false_eq_true, false_or,
      false_and, or_false, and_true, true_and]
    omega
  | [a, b] =>
    apply Bool.eq_iff_iff.mpr
    simp only [matchOctet, match250to255, match200to249, matchShort, ipv4SpecSegOk,
      isDigitChar, digitsVal, List.foldl, List.isEmpty_cons, List.all_cons, List.all_nil,
      List.length_cons, List.length_nil, Bool.or_eq_true, Bool.and_eq_true,
      Bool.not_eq_true', decide_eq_true_eq, beq_iff_eq, Bool.false_eq_true, false_or,
      false_and, or_false, and_true, true_and]
    omega
  | [a, b, c] =>
    apply Bool.eq_iff_iff.mpr
    simp only [matchOctet, match250to255, match200to249, matchShort, ipv4SpecSegOk,
      isDigitChar, digitsVal, List.foldl, List.isEmpty_cons, List.all_cons, List.all_nil,
      List.length_cons, List.length_nil, Bool.or_eq_true, Bool.and_eq_true,
      Bool.not_eq_true', decide_eq_true_eq, beq_iff_eq, Bool.false_eq_true, false_or,
      false_and, or_false, and_true, true_and]
    omega
  | a :: b :: c :: d :: t =>
    have h1 : matchOctet (a :: b :: c :: d :: t) = false := rfl
    have hlen : decide ((a :: b :: c :: d :: t).length ≤ 3) = false :=
      decide_eq_false (by simp only [List.length_cons]; omega)
    rw [h1]
    symm
    simp [ipv4SpecSegOk, hlen]

theorem canonSeg_specSegOk (g : List Char) (h : canonSeg g = true) :
    ipv4SpecSegOk g = true := by
  simp only [canonSeg, Bool.and_eq_true, Bool.not_eq_true', decide_eq_true_eq] at h
  obtain ⟨⟨⟨hdig, hne⟩, hval⟩, hlead⟩ := h
  simp only [ipv4SpecSegOk, Bool.and_eq_true, Bool.not_eq_true', decide_eq_true_eq]
  refine ⟨⟨⟨hne, ?_⟩, hdig⟩, hval⟩
  match g with
  | [] => simp
  | [a] => simp
  | a :: b :: t =>
    by_contra hbig
    simp only [List.length_cons] at hbig
    have ht : 2 ≤ t.length := by omega
    have hlead' : ¬ a.toNat = 48 := by
      simpa [noLeadZero] using hlead
    have hadig : 48 ≤ a.toNat ∧ a.toNat ≤ 57 := by
      have := List.all_eq_true.mp hdig a (List.mem_cons_self a _)
      simpa [isDigitChar] using this
    have hpow : (1000 : Nat) ≤ 10 ^ (b :: t).length := by
      have h3 : (3 : Nat) ≤ (b :: t).length := by
        simp only [List.length_cons]; omega
      calc (1000 : Nat) = 10 ^ 3 := by norm_num
      _ ≤ 10 ^ (b :: t).length := Nat.pow_le_pow_right (by norm_num) h3
    have hbound : 1000 ≤ digitsVal (a :: b :: t) := by
      rw [digitsVal_cons]
      calc (1000 : Nat) ≤ 10 ^ (b :: t).length := hpow
      _ = 1 * 10 ^ (b :: t).length := (one_mul _).symm
      _ ≤ (a.toNat - 48) * 10 ^ (b :: t).length :=
        Nat.mul_le_mul_right _ (by omega)
      _ ≤ (a.toNat - 48) * 10 ^ (b :: t).length + digitsVal (b :: t) :=
        Nat.le_add_right _ _
    omega

theorem digit_not_dot {c : Char} (h : isDigitChar c = true) : c ≠ '.' := by
  intro he
  rw [he] at h
  exact absurd h (by decide)

theorem hex_not_colon {c : Char} (h : isHexChar c = true) : c ≠ ':' := by
  intro he
  rw [he] at h
  exact absurd h (by decide)

theorem digit_not_ws {c : Char} (h : isDigitChar c = true) : c.isWhitespace = false := by
  have h32 : c ≠ ' ' := fun he => by rw [he] at h; exact absurd h (by decide)
  have h9 : c ≠ '\t' := fun he => by rw [he] at h; exact absurd h (by decide)
  have h13 : c ≠ '\r' := fun he => by rw [he] at h; exact absurd h (by decide)
  have h10 : c ≠ '\n' := fun he => by rw [he] at h; exact absurd h (by decide)
  simp [Char.isWhitespace, h32, h9, h13, h10]

theorem dropWhile_ws_of_digits (g : List Char) (h : g.all isDigitChar = true) :
    g.dropWhile Char.isWhitespace = g := by
  cases g with
  | nil => rfl
  | cons c t =>
    simp only [List.all_cons, Bool.and_eq_true] at h
    simp [List.dropWhile_cons, digit_not_ws h.1]

theorem intVal_of_digits (g : List Char) (h : g.all isDigitChar = true) :
    intVal g = digitsVal g := by
  have hrev : g.reverse.all isDigitChar = true := by
    rw [List.all_eq_true] at h ⊢
    intro c hc
    exact h c (List.mem_reverse.mp hc)
  unfold intVal
  rw [dropWhile_ws_of_digits g h, dropWhile_ws_of_digits g.reverse hrev,
    List.reverse_reverse]

theorem pyMatch_of_core {core : List Char → Bool} {l : List Char}
    (h : core l = true) : pyMatch core l = true := by
  simp [pyMatch, h]

theorem pyMatch_cases {core : List Char → Bool} {l : List Char}
    (h : pyMatch core l = true) :
    core l = true ∨ (l.getLast? = some '\n' ∧ core l.dropLast = true) := by
  simp only [pyMatch, Bool.or_eq_true, Bool.and_eq_true, beq_iff_eq] at h
  exact h

theorem pyMatch_eq_false {core : List Char → Bool} {l : List Char}
    (h1 : core l = false) (h2 : l.getLast? ≠ some '\n') :
    pyMatch core l = false := by
  have hb : (l.getLast? == some '\n') = false := beq_eq_false_iff_ne.mpr h2
  simp [pyMatch, h1, hb]

theorem mem_of_getLast? {l : List Char} {a : Char} (h : l.getLast? = some a) :
    a ∈ l := by
  induction l with
  | nil => cases h
  | cons x t ih =>
    cases t with
    | nil =>
      rw [List.getLast?_singleton] at h
      injection h with h'
      rw [← h']
      exact List.mem_singleton_self x
    | cons y u =>
      rw [List.getLast?_cons_cons] at h
      exact List.mem_cons_of_mem _ (ih h)

theorem ipv4Chars_chars {l : List Char} (h : ipv4Chars l = true) :
    ∀ c ∈ l, isDigitChar c = true ∨ c = '.' := by
  simp only [ipv4Chars, Bool.and_eq_true, List.all_eq_true] at h
  intro c hc
  rw [← joinWith_splitOnChar '.' l] at hc
  rcases mem_joinWith '.' _ hc with hd | ⟨g, hg, hcg⟩
  · exact Or.inr hd
  · left
    have hm := h.2 g hg
    rw [matchOctet_eq_specSegOk] at hm
    simp only [ipv4SpecSegOk, Bool.and_eq_true, List.all_eq_true] at hm
    exact hm.1.2 c hcg

theorem ipv6Chars_chars {l : List Char} (h : ipv6Chars l = true) :
    ∀ c ∈ l, isHexChar c = true ∨ c = ':' := by
  simp only [ipv6Chars, Bool.and_eq_true, List.all_eq_true] at h
  intro c hc
  rw [← joinWith_splitOnChar ':' l] at hc
  rcases mem_joinWith ':' _ hc with hd | ⟨g, hg, hcg⟩
  · exact Or.inr hd
  · left
    have hm := h.2 g hg
    simp only [matchHextet, Bool.and_eq_true, List.all_eq_true] at hm
    exact hm.2 c hcg

theorem ipv6Chars_colon {l : List Char} (h : ipv6Chars l = true) : ':' ∈ l := by
  simp only [ipv6Chars, Bool.and_eq_true, beq_iff_eq] at h
  have hcount : l.count ':' + 1 = 8 := by
    rw [← length_splitOnChar]
    exact h.1
  by_contra hni
  rw [List.count_eq_zero_of_not_mem hni] at hcount
  omega

theorem chars_disjoint_core (l : List Char) :
    ¬ (ipv4Chars l = true ∧ ipv6Chars l = true) := by
  rintro ⟨h4, h6⟩
  rcases ipv4Chars_chars h4 ':' (ipv6Chars_colon h6) with hd | hd
  · exact absurd hd (by decide)
  · exact absurd hd (by decide)

theorem ipv6Chars_of_groups (gs : List (List Char)) (hlen : gs.length = 8)
    (hgs : ∀ g ∈ gs, g ≠ [] ∧ g.length ≤ 4 ∧ g.all isHexChar = true) :
    ipv6Chars (joinWith ':' gs) = true := by
  have hnosep : ∀ g ∈ gs, ':' ∉ g := fun g hg hmem =>
    hex_not_colon (List.all_eq_true.mp (hgs g hg).2.2 ':' hmem) rfl
  have hne : gs ≠ [] := by
    intro h
    rw [h] at hlen
    simp at hlen
  simp only [ipv6Chars, splitOnChar_joinWith ':' gs hne hnosep, Bool.and_eq_true,
    beq_iff_eq, List.all_eq_true]
  refine ⟨hlen, fun g hg => ?_⟩
  obtain ⟨h1, h2, h3⟩ := hgs g hg
  simp only [matchHextet, Bool.and_eq_true, decide_eq_true_eq]
  refine ⟨⟨?_, h2⟩, h3⟩
  cases g with
  | nil => exact absurd rfl h1
  | cons x xs => simp

theorem ipv6Chars_bad_group (l g : List Char) (hg : g ∈ splitOnChar ':' l)
    (hbad : 4 < g.length ∨ ∃ c ∈ g, isHexChar c = false) :
    ipv6Chars l = false := by
  have hfalse : matchHextet g = false := by
    rcases hbad with h4 | ⟨c, hc, hcf⟩
    · have hd : decide (g.length ≤ 4) = false := decide_eq_false (by omega)
      simp [matchHextet, hd]
    · have hall : g.all isHexChar = false := by
        rw [Bool.eq_false_iff]
        intro hA
        have := List.all_eq_true.mp hA c hc
        rw [this] at hcf
        cases hcf
      simp [matchHextet, hall]
  have hAfalse : (splitOnChar ':' l).all matchHextet = false := by
    rw [Bool.eq_false_iff]
    intro hA
    have := List.all_eq_true.mp hA g hg
    rw [hfalse] at this
    cases this
  simp [ipv6Chars, hAfalse]

/-- C2 (counterexample): the claim that the IPv4 classifier accepts exactly
the strings of four dot-separated decimal segments each denoting a value in
[0,255] with no leading or trailing content is false on two counts:
`0255.0.0.1` is in that language (its segments denote 255, 0, 0, 1) but the
classifier rejects it, because the octet pattern matches at most three
digits per segment; and the classifier accepts `1.2.3.4\n`, which has
trailing content, because `$` under Python's `re.match` also matches just
before one trailing newline. -/
theorem ipv4_claim_counterexample :
    ipv4ClaimLang ("0255.0.0.1".data) = true ∧
    is_valid_ipv4 "0255.0.0.1" = false ∧
    is_valid_ipv4 "1.2.3.4\n" = true ∧
    ipv4ClaimLang ("1.2.3.4\n".data) = false ∧
    ¬ (∀ s : String, is_valid_ipv4 s = ipv4ClaimLang s.data) :=
  ⟨by decide, by decide, by decide, by decide,
   fun h => absurd (h "0255.0.0.1") (by decide)⟩

/-- C2 (amended): the IPv4 classifier accepts exactly the strings consisting
of four dot-separated decimal segments of one to three digits each denoting
a value in [0,255], optionally followed by one trailing newline (Python's
`re.match` lets `$` also match before it); it rejects every segment value
above 255 (`256.0.0.1`, also with a trailing newline) and every segment
count other than four (`1.2.3`, likewise). -/
theorem ipv4_accepts_exactly_amended (s : String) :
    is_valid_ipv4 s = pyMatch ipv4AmendedLang s.data ∧
    is_valid_ipv4 "256.0.0.1" = false ∧
    is_valid_ipv4 "1.2.3" = false ∧
    is_valid_ipv4 "256.0.0.1\n" = false ∧
    is_valid_ipv4 "1.2.3\n" = false := by
  refine ⟨?_, by decide, by decide, by decide, by decide⟩
  have hfun : matchOctet = ipv4SpecSegOk := funext matchOctet_eq_specSegOk
  have hlang : ipv4Chars = ipv4AmendedLang := by
    funext l
    simp only [ipv4Chars, ipv4AmendedLang, hfun]
  show pyMatch ipv4Chars s.data = pyMatch ipv4AmendedLang s.data
  rw [hlang]

/-- C3 (counterexample): the claimed rejection half is false of the source:
`1:2:3:4:5:6:7:8\n` is accepted although its last colon-group `8\n` contains
the non-hex character `\n`, because `$` under Python's `re.match` also
matches just before one trailing newline. -/
theorem ipv6_newline_counterexample :
    is_valid_ipv6 "1:2:3:4:5:6:7:8\n" = true ∧
    ['8', '\n'] ∈ splitOnChar ':' ("1:2:3:4:5:6:7:8\n".data) ∧
    isHexChar '\n' = false ∧
    ¬ (∀ (s : String) (g : List Char), g ∈ splitOnChar ':' s.data →
        (4 < g.length ∨ ∃ c ∈ g, isHexChar c = false) →
        is_valid_ipv6 s = false) :=
  ⟨by decide, by decide, by decide,
   fun h => absurd (h "1:2:3:4:5:6:7:8\n" ['8', '\n'] (by decide)
     (Or.inr ⟨'\n', by decide, by decide⟩)) (by decide)⟩

/-- C3 (amended): the IPv6 classifier accepts every string in the full
canonical 8-group hextet form (eight colon-separated groups of one to four
hex digits), also when a single trailing newline follows (Python's
`re.match` lets `$` match before it); and every string that does not end in
a newline and has a colon-group longer than four characters or containing a
non-hex character is rejected. -/
theorem ipv6_eight_hextets :
    (∀ (s : String) (gs : List (List Char)), s.data = joinWith ':' gs →
      gs.length = 8 →
      (∀ g ∈ gs, g ≠ [] ∧ g.length ≤ 4 ∧ g.all isHexChar = true) →
      is_valid_ipv6 s = true) ∧
    (∀ (s : String) (gs : List (List Char)), s.data = joinWith ':' gs ++ ['\n'] →
      gs.length = 8 →
      (∀ g ∈ gs, g ≠ [] ∧ g.length ≤ 4 ∧ g.all isHexChar = true) →
      is_valid_ipv6 s = true) ∧
    (∀ (s : String) (g : List Char), s.data.getLast? ≠ some '\n' →
      g ∈ splitOnChar ':' s.data →
      (4 < g.length ∨ ∃ c ∈ g, isHexChar c = false) →
      is_valid_ipv6 s = false) := by
  refine ⟨?_, ?_, ?_⟩
  · intro s gs hdata hlen hgs
    show pyMatch ipv6Chars s.data = true
    rw [hdata]
    exact pyMatch_of_core (ipv6Chars_of_groups gs hlen hgs)
  · intro s gs hdata hlen hgs
    show pyMatch ipv6Chars s.data = true
    rw [hdata]
    have hlast : (joinWith ':' gs ++ ['\n']).getLast? = some '\n' :=
      List.getLast?_concat _
    have hdrop : (joinWith ':' gs ++ ['\n']).dropLast = joinWith ':' gs :=
      List.dropLast_concat
    simp [pyMatch, hlast, hdrop, ipv6Chars_of_groups gs hlen hgs]
  · intro s g hnl hg hbad
    show pyMatch ipv6Chars s.data = false
    exact pyMatch_eq_false (ipv6Chars_bad_group s.data g hg hbad) hnl

/-- C3 witness: the canonical form `1:2:3:4:5:6:7:8` is accepted, the
newline-suffixed canonical form `a:b:c:d:e:f:0:1\n` is accepted, and a
newline-free string whose last group has five hex digits is rejected. -/
theorem ipv6_eight_hextets_witness :
    is_valid_ipv6 "1:2:3:4:5:6:7:8" = true ∧
    is_valid_ipv6 "a:b:c:d:e:f:0:1\n" = true ∧
    is_valid_ipv6 "1:2:3:4:5:6:7:12345" = false :=
  ⟨ipv6_eight_hextets.1 "1:2:3:4:5:6:7:8"
      [['1'], ['2'], ['3'], ['4'], ['5'], ['6'], ['7'], ['8']]
      (by decide) (by decide) (by decide),
   ipv6_eight_hextets.2.1 "a:b:c:d:e:f:0:1\n"
      [['a'], ['b'], ['c'], ['d'], ['e'], ['f'], ['0'], ['1']]
      (by decide) (by decide) (by decide),
   ipv6_eight_hextets.2.2 "1:2:3:4:5:6:7:12345" ['1', '2', '3', '4', '5']
      (by decide) (by decide) (Or.inl (by decide))⟩

/-- C10: the IPv4 classifier accepts segments with leading zeros: every
canonical dotted-decimal form is accepted, and `127.00.0.01` is accepted
although it is not canonical, so the accepted language strictly contains the
canonical forms. -/
theorem ipv4_leading_zeros_accepted :
    (∀ s : String, isCanonicalIPv4 s.data = true → is_valid_ipv4 s = true) ∧
    is_valid_ipv4 "127.00.0.01" = true ∧
    isCanonicalIPv4 ("127.00.0.01".data) = false := by
  refine ⟨?_, by decide, by decide⟩
  intro s h
  simp only [isCanonicalIPv4, Bool.and_eq_true, beq_iff_eq, List.all_eq_true] at h
  have hcore : ipv4Chars s.data = true := by
    simp only [ipv4Chars, Bool.and_eq_true, beq_iff_eq, List.all_eq_true]
    refine ⟨h.1, fun g hg => ?_⟩
    rw [matchOctet_eq_specSegOk]
    exact canonSeg_specSegOk g (h.2 g hg)
  exact pyMatch_of_core hcore

/-- C10 witness: the canonical form `203.0.113.5` is canonical and
accepted. -/
theorem ipv4_leading_zeros_witness :
    isCanonicalIPv4 ("203.0.113.5".data) = true ∧
    is_valid_ipv4 "203.0.113.5" = true :=
  ⟨by decide, ipv4_leading_zeros_accepted.1 "203.0.113.5" (by decide)⟩

/-- C9: for every input string at most one of the two classifiers accepts it,
the record type is determined by the accepted form (`A` for IPv4, `AAAA` for
IPv6), and a value accepted by neither classifier makes `set_dns_record`
return without issuing any remote call. -/
theorem classifiers_disjoint_and_gate (ip : String) :
    ¬ (is_valid_ipv4 ip = true ∧ is_valid_ipv6 ip = true) ∧
    (is_valid_ipv4 ip = true → classify ip = some "A") ∧
    (is_valid_ipv6 ip = true → classify ip = some "AAAA") ∧
    (classify ip = none →
      ∀ (state : List ProvRecord) (freshId main_domain subInput : String),
        set_dns_record state freshId main_domain subInput ip = none) := by
  have hdisj : ¬ (is_valid_ipv4 ip = true ∧ is_valid_ipv6 ip = true) := by
    rintro ⟨h4, h6⟩
    rcases pyMatch_cases h4 with h4c | ⟨hnl4, h4c⟩
    · rcases pyMatch_cases h6 with h6c | ⟨hnl6, h6c⟩
      · exact chars_disjoint_core ip.data ⟨h4c, h6c⟩
      · rcases ipv4Chars_chars h4c '\n' (mem_of_getLast? hnl6) with hd | hd
        · exact absurd hd (by decide)
        · exact absurd hd (by decide)
    · rcases pyMatch_cases h6 with h6c | ⟨hnl6, h6c⟩
      · rcases ipv6Chars_chars h6c '\n' (mem_of_getLast? hnl4) with hd | hd
        · exact absurd hd (by decide)
        · exact absurd hd (by decide)
      · exact chars_disjoint_core ip.data.dropLast ⟨h4c, h6c⟩
  refine ⟨hdisj, fun h4 => by simp [classify, h4], fun h6 => ?_, fun hnone => ?_⟩
  · have h4f : is_valid_ipv4 ip = false := by
      rw [Bool.eq_false_iff]
      intro h4
      exact hdisj ⟨h4, h6⟩
    simp [classify, h4f, h6]
  · intro state freshId main_domain subInput
    unfold set_dns_record
    split
    · rfl
    · split
      · rfl
      · rw [hnone]

/-- C9 witness: `not-an-ip` is accepted by neither classifier, so no remote
call is made. -/
theorem classifiers_disjoint_witness :
    set_dns_record [] "fresh" "example.com" "www" "not-an-ip" = none :=
  (classifiers_disjoint_and_gate "not-an-ip").2.2.2 (by decide) [] "fresh" "example.com" "www"

theorem parse_verChars (a b c : List Char)
    (ha : DigitGroup a) (hb : DigitGroup b) (hc : DigitGroup c) :
    parseVersionNums (verChars a b c) = [digitsVal a, digitsVal b, digitsVal c] := by
  show (splitOnChar '.' (('v' :: joinWith '.' [a, b, c]).drop 1)).map intVal = _
  have hd : ('v' :: joinWith '.' [a, b, c]).drop 1 = joinWith '.' [a, b, c] := rfl
  rw [hd]
  have hnosep : ∀ g ∈ [a, b, c], '.' ∉ g := by
    intro g hg hmem
    have hdg : DigitGroup g := by
      rcases List.mem_cons.mp hg with rfl | hg2
      · exact ha
      rcases List.mem_cons.mp hg2 with rfl | hg3
      · exact hb
      rcases List.mem_cons.mp hg3 with rfl | hg4
      · exact hc
      · exact absurd hg4 (List.not_mem_nil g)
    exact digit_not_dot (List.all_eq_true.mp hdg.2 '.' hmem) rfl
  rw [splitOnChar_joinWith '.' [a, b, c] (by simp) hnosep]
  simp [List.map, intVal_of_digits a ha.2, intVal_of_digits b hb.2,
    intVal_of_digits c hc.2]

/-- C4: on validated version strings `vA.B.C`, `is_new_version` returns true
exactly when at the first differing component (major, then minor, then patch)
the candidate's integer value exceeds the current's; comparing a version with
itself returns false. -/
theorem is_new_version_lex (a1 b1 c1 a2 b2 c2 : List Char)
    (h1 : DigitGroup a1) (h2 : DigitGroup b1) (h3 : DigitGroup c1)
    (h4 : DigitGroup a2) (h5 : DigitGroup b2) (h6 : DigitGroup c2) :
    (is_new_version (verChars a1 b1 c1) (verChars a2 b2 c2) = true ↔
      (digitsVal a2 < digitsVal a1 ∨ (digitsVal a1 = digitsVal a2 ∧
        (digitsVal b2 < digitsVal b1 ∨ (digitsVal b1 = digitsVal b2 ∧
          digitsVal c2 < digitsVal c1))))) ∧
    is_new_version (verChars a1 b1 c1) (verChars a1 b1 c1) = false := by
  have hp1 := parse_verChars a1 b1 c1 h1 h2 h3
  have hp2 := parse_verChars a2 b2 c2 h4 h5 h6
  have hz : isNewList ([] : List Nat) ([] : List Nat) = false := rfl
  constructor
  · unfold is_new_version
    rw [hp1, hp2]
    simp only [isNewList, hz]
    split_ifs <;> (try simp) <;> omega
  · unfold is_new_version
    rw [hp1]
    simp only [isNewList, hz]
    split_ifs <;> (try simp) <;> omega

/-- C4 witness: `v1.2.3` is newer than `v1.2.2`, and `v1.2.2` is not newer
than itself. -/
theorem is_new_version_lex_witness :
    is_new_version (verChars ['1'] ['2'] ['3']) (verChars ['1'] ['2'] ['2']) = true ∧
    is_new_version (verChars ['1'] ['2'] ['2']) (verChars ['1'] ['2'] ['2']) = false :=
  ⟨(is_new_version_lex ['1'] ['2'] ['3'] ['1'] ['2'] ['2'] (by decide) (by decide)
      (by decide) (by decide) (by decide) (by decide)).1.mpr (by decide),
   (is_new_version_lex ['1'] ['2'] ['2'] ['1'] ['2'] ['2'] (by decide) (by decide)
      (by decide) (by decide) (by decide) (by decide)).2⟩

/-- C5 (counterexample): `v1.2.3\n` does not have the strict form
`vMAJOR.MINOR.PATCH` (that form is `versionCore`), yet the source's pattern
check accepts it, because `$` under Python's `re.match` also matches just
before one trailing newline, and the comparator IS invoked on it: with the
source's comparator the run outcome is `no_update` — the not-newer outcome
the claim says the invalid-format outcome is distinct from — and a different
comparator changes the outcome, so the result depends on the comparison. -/
theorem version_newline_counterexample :
    versionCore ("v1.2.3\n".data) = false ∧
    versionPatternOk ("v1.2.3\n".data) = true ∧
    updateCheckRun (HttpResult.success 200 ("v1.2.3\n".data)) =
      CheckOutcome.noUpdate ∧
    runWith (fun _ _ => true) (HttpResult.success 200 ("v1.2.3\n".data)) =
      CheckOutcome.updateAvailable ("v1.2.3\n".data) :=
  ⟨by decide, by decide, by decide, by decide⟩

/-- C5 (amended): every fetched tag is checked, before any comparison,
against `^v\d+\.\d+\.\d+$` under Python `re.match` semantics, where `$` also
matches just before a single trailing newline (so `v1.2.3\n` passes the
check and reaches the comparator). For tags consisting of ASCII characters,
a tag failing that check produces the invalid-format failure outcome
regardless of the comparator (so the comparator is never consulted on it),
and that outcome is distinct from the `no_update` outcome, from the
`update_available` outcome, and from both network-failure messages. (The
source's `\d` additionally matches non-ASCII Unicode decimal digits; such
tags are outside this statement's scope.) -/
theorem invalid_version_never_compared (tag : List Char)
    (hascii : ∀ c ∈ tag, c.toNat < 128)
    (hbad : versionPatternOk tag = false) :
    (∀ cmp : List Char → List Char → Bool,
      runWith cmp (HttpResult.success 200 tag) =
        CheckOutcome.checkFailed (invalidFormatMsg tag)) ∧
    updateCheckRun (HttpResult.success 200 tag) =
      CheckOutcome.checkFailed (invalidFormatMsg tag) ∧
    (∀ v, CheckOutcome.checkFailed (invalidFormatMsg tag) ≠
      CheckOutcome.updateAvailable v) ∧
    CheckOutcome.checkFailed (invalidFormatMsg tag) ≠ CheckOutcome.noUpdate ∧
    invalidFormatMsg tag ≠ timeoutMsg ∧
    (∀ e, invalidFormatMsg tag ≠ requestErrMsg e) := by
  have hrun : ∀ cmp : List Char → List Char → Bool,
      runWith cmp (HttpResult.success 200 tag) =
        CheckOutcome.checkFailed (invalidFormatMsg tag) := by
    intro cmp
    simp [runWith, hbad]
  have hform : "获取的版本格式无效: ".data = '获' :: "取的版本格式无效: ".data := rfl
  refine ⟨hrun, hrun is_new_version, fun v h => CheckOutcome.noConfusion h,
    fun h => CheckOutcome.noConfusion h, ?_, ?_⟩
  · intro h
    unfold invalidFormatMsg timeoutMsg at h
    have h2 : "连接超时，请检查网络".data = '连' :: "接超时，请检查网络".data := rfl
    rw [hform, List.cons_append, h2] at h
    injection h with hhead _
    exact absurd hhead (by decide)
  · intro e h
    unfold invalidFormatMsg requestErrMsg at h
    have h2 : "网络请求错误: ".data = '网' :: "络请求错误: ".data := rfl
    rw [hform, List.cons_append, h2, List.cons_append] at h
    injection h with hhead _
    exact absurd hhead (by decide)

/-- C5 witness: the ASCII tag `1.2.3` (missing the leading `v`) produces the
invalid-format failure, which differs from the no-update outcome. -/
theorem invalid_version_never_compared_witness :
    updateCheckRun (HttpResult.success 200 ("1.2.3".data)) =
      CheckOutcome.checkFailed (invalidFormatMsg ("1.2.3".data)) ∧
    CheckOutcome.checkFailed (invalidFormatMsg ("1.2.3".data)) ≠
      CheckOutcome.noUpdate :=
  ⟨(invalid_version_never_compared ("1.2.3".data) (by decide) (by decide)).2.1,
   (invalid_version_never_compared ("1.2.3".data) (by decide) (by decide)).2.2.2.1⟩
theorem get_record_id_mem (state : List ProvRecord) (main_domain sub_domain record_type
    rid : String) (h : get_record_id state main_domain sub_domain record_type = some rid) :
    ∃ r ∈ state, r.recordId = rid := by
  unfold get_record_id recordIdFromResponse at h
  cases hresp : describeSubDomainRecords state (fullSubDomain sub_domain main_domain)
      record_type with
  | nil =>
    rw [hresp] at h
    simp at h
  | cons r rs =>
    rw [hresp] at h
    simp only [List.head?_cons, Option.map_some', Option.some.injEq] at h
    have hmem : r ∈ describeSubDomainRecords state (fullSubDomain sub_domain main_domain)
        record_type := by
      rw [hresp]
      exact List.mem_cons_self r rs
    exact ⟨r, List.mem_of_mem_filter hmem, h⟩

/-- C1: with a main domain, a subdomain (or the `@` default) and an IP that
classifies as IPv4 or IPv6, exactly one remote mutation is issued: when the
provider query returns an existing record id, a single update call with that
id (and the "updated" message); otherwise a single add call with
`(mainDomain, rr, type, ip)` (and the "added" message) — never both. The
well-formedness hypothesis reflects §3 of the spec: provider-assigned record
ids are real identifiers, never the empty string. -/
theorem reconcile_one_mutation (state : List ProvRecord)
    (freshId main_domain subInput ip_address record_type sub_domain : String)
    (hwf : ∀ r ∈ state, r.recordId ≠ "")
    (hmain : main_domain ≠ "")
    (hclass : classify ip_address = some record_type)
    (hsub : sub_domain = if subInput == "" then "@" else subInput) :
    set_dns_record state freshId main_domain subInput ip_address =
      some (set_record_func state freshId main_domain sub_domain ip_address record_type) ∧
    (set_record_func state freshId main_domain sub_domain ip_address record_type).calls.length
      = 1 ∧
    (∀ rid, get_record_id state main_domain sub_domain record_type = some rid →
      (set_record_func state freshId main_domain sub_domain ip_address
          record_type).calls =
        [RemoteCall.updateCall rid sub_domain record_type ip_address] ∧
      (set_record_func state freshId main_domain sub_domain ip_address
          record_type).message =
        "已更新 " ++ sub_domain ++ "." ++ main_domain ++ " 的" ++ record_type ++
          "记录为 " ++ ip_address) ∧
    (get_record_id state main_domain sub_domain record_type = none →
      (set_record_func state freshId main_domain sub_domain ip_address
          record_type).calls =
        [RemoteCall.addCall main_domain sub_domain record_type ip_address] ∧
      (set_record_func state freshId main_domain sub_domain ip_address
          record_type).message =
        "已添加 " ++ sub_domain ++ "." ++ main_domain ++ " 的" ++ record_type ++
          "记录为 " ++ ip_address) := by
  have hm : (main_domain == "") = false := beq_eq_false_iff_ne.mpr hmain
  have hip : ip_address ≠ "" := by
    intro h
    rw [h] at hclass
    have hc0 : classify "" = none := by decide
    rw [hc0] at hclass
    cases hclass
  have hi : (ip_address == "") = false := beq_eq_false_iff_ne.mpr hip
  refine ⟨?_, ?_, ?_, ?_⟩
  · subst hsub
    simp [set_dns_record, hm, hi, hclass]
  · simp only [set_record_func]
    split <;> rfl
  · intro rid hrid
    obtain ⟨r, hr, hrideq⟩ := get_record_id_mem state main_domain _ record_type rid hrid
    have hridne : rid ≠ "" := hrideq ▸ hwf r hr
    have hb : (rid == "") = false := beq_eq_false_iff_ne.mpr hridne
    constructor <;> simp [set_record_func, hrid, pyTruthy, hb, Option.getD]
  · intro hnone
    have hfalse : pyTruthy (get_record_id state main_domain sub_domain record_type)
        = false := by
      rw [hnone]
      rfl
    constructor <;> simp [set_record_func, hfalse]

/-- C1 witness: against a state with one matching `www.example.com`/`A`
record, the worker is launched and issues exactly one mutation. -/
theorem reconcile_one_mutation_witness :
    set_dns_record demoStateC1 "fresh" "example.com" "www" "1.2.3.4" =
      some (set_record_func demoStateC1 "fresh" "example.com" "www" "1.2.3.4" "A") ∧
    (set_record_func demoStateC1 "fresh" "example.com" "www" "1.2.3.4" "A").calls.length
      = 1 :=
  ⟨(reconcile_one_mutation demoStateC1 "fresh" "example.com" "www" "1.2.3.4" "A" "www"
      (by decide) (by decide) (by decide) (by decide)).1,
   (reconcile_one_mutation demoStateC1 "fresh" "example.com" "www" "1.2.3.4" "A" "www"
      (by decide) (by decide) (by decide) (by decide)).2.1⟩

/-- C6: when the provider's query response for `(fullDomain, type)` contains
more than one matching record, `get_record_id` returns the record id of the
first entry of the returned list, and the reconcile step issues its single
update call with exactly that id. -/
theorem first_listed_record_selected (state : List ProvRecord)
    (main_domain sub_domain record_type : String)
    (r : ProvRecord) (rs : List ProvRecord)
    (hwf : ∀ x ∈ state, x.recordId ≠ "")
    (hresp : describeSubDomainRecords state (fullSubDomain sub_domain main_domain)
      record_type = r :: rs)
    (hmulti : rs ≠ []) :
    get_record_id state main_domain sub_domain record_type = some r.recordId ∧
    ∀ freshId ip_address,
      (set_record_func state freshId main_domain sub_domain ip_address record_type).calls =
        [RemoteCall.updateCall r.recordId sub_domain record_type ip_address] := by
  have hid : get_record_id state main_domain sub_domain record_type = some r.recordId := by
    unfold get_record_id recordIdFromResponse
    rw [hresp]
    rfl
  have hmem : r ∈ describeSubDomainRecords state (fullSubDomain sub_domain main_domain)
      record_type := by
    rw [hresp]
    exact List.mem_cons_self r rs
  have hrstate : r ∈ state := List.mem_of_mem_filter hmem
  have hb : (r.recordId == "") = false := beq_eq_false_iff_ne.mpr (hwf r hrstate)
  refine ⟨hid, fun freshId ip_address => ?_⟩
  simp [set_record_func, hid, pyTruthy, hb, Option.getD]

/-- C6 witness: with two matching records `R1` and `R2` in provider order,
the id of the first one, `R1`, is selected and updated. -/
theorem first_listed_record_selected_witness :
    get_record_id demoStateC6 "example.com" "www" "A" = some "R1" ∧
    (set_record_func demoStateC6 "fresh" "example.com" "www" "9.9.9.9" "A").calls =
      [RemoteCall.updateCall "R1" "www" "A" "9.9.9.9"] := by
  have h := first_listed_record_selected demoStateC6 "example.com" "www" "A"
    { domainName := "example.com", rr := "www", rtype := "A", value := "1.1.1.1",
      recordId := "R1", status := "ENABLE" }
    [{ domainName := "example.com", rr := "www", rtype := "A", value := "2.2.2.2",
       recordId := "R2", status := "ENABLE" }]
    (by decide) (by decide) (by decide)
  exact ⟨h.1, h.2 "fresh" "9.9.9.9"⟩

/-- C7: after each of the mutations (update-or-create, set-status, delete),
the record list delivered to the caller is the fresh full list-records result
computed on the post-mutation provider state — and, as the concrete instance
shows, that list reflects the mutation rather than the previously held
list. -/
theorem delivered_list_is_fresh :
    (∀ (state : List ProvRecord) (freshId main_domain sub_domain ip_address
        record_type : String),
      (set_record_func state freshId main_domain sub_domain ip_address
          record_type).delivered =
        get_domain_records
          (set_record_func state freshId main_domain sub_domain ip_address
            record_type).finalState main_domain) ∧
    (∀ (state : List ProvRecord) (record_id status main_domain : String),
      (toggle_func state record_id status main_domain).delivered =
        get_domain_records (toggle_func state record_id status main_domain).finalState
          main_domain) ∧
    (∀ (state : List ProvRecord) (record_id main_domain domainLabel : String),
      (delete_func state record_id main_domain domainLabel).delivered =
        get_domain_records (delete_func state record_id main_domain domainLabel).finalState
          main_domain) ∧
    (toggle_func demoStateC7 "id1" "disable" "example.com").delivered ≠
      get_domain_records demoStateC7 "example.com" := by
  refine ⟨?_, fun _ _ _ _ => rfl, fun _ _ _ _ => rfl, by decide⟩
  intro state freshId main_domain sub_domain ip_address record_type
  simp only [set_record_func]
  split <;> rfl

/-- C8 (counterexample): the claim that every set-status invocation passes a
status from `{ENABLE, DISABLE}` is false: the pause button of an enabled
record passes the lowercase string `disable`, which is neither `ENABLE` nor
`DISABLE`. -/
theorem toggle_status_counterexample :
    ¬ ∀ r : DisplayRecord,
        statusArgForRecord r = "ENABLE" ∨ statusArgForRecord r = "DISABLE" := fun h =>
  absurd (h { full_domain := "www.example.com", rr := "www", rtype := "A",
              value := "1.2.3.4", record_id := "id1", status := "ENABLE" })
    (by decide)

/-- C8 (amended): every set-status invocation passes a status from
`{ENABLE, disable}`: the lowercase `disable` when pausing an enabled record
and `ENABLE` when enabling a paused one, and `toggle_record_status` forwards
that argument to the provider unchanged. -/
theorem toggle_status_domain (r : DisplayRecord) (state : List ProvRecord)
    (record_id main_domain : String) :
    (statusArgForRecord r = "disable" ∨ statusArgForRecord r = "ENABLE") ∧
    (r.status = "ENABLE" → statusArgForRecord r = "disable") ∧
    (r.status ≠ "ENABLE" → statusArgForRecord r = "ENABLE") ∧
    (toggle_func state record_id (statusArgForRecord r) main_domain).calls =
      [RemoteCall.statusCall record_id (statusArgForRecord r)] := by
  refine ⟨?_, fun h => ?_, fun h => ?_, rfl⟩
  · by_cases h : (r.status == "ENABLE") = true
    · left
      simp [statusArgForRecord, h]
    · right
      simp only [statusArgForRecord]
      rw [if_neg]
      exact fun hc => h (by simp [hc])
  · simp [statusArgForRecord, h]
  · simp only [statusArgForRecord]
    rw [if_neg]
    intro hc
    exact h (by simpa using hc)

/-- C8 amended witness: an enabled record's pause button passes `disable`. -/
theorem toggle_status_domain_witness :
    statusArgForRecord { full_domain := "www.example.com", rr := "www", rtype := "A",
                         value := "1.2.3.4", record_id := "id1",
                         status := "ENABLE" } = "disable" :=
  (toggle_status_domain
    { full_domain := "www.example.com", rr := "www", rtype := "A",
      value := "1.2.3.4", record_id := "id1", status := "ENABLE" }
    [] "id1" "example.com").2.1 (by decide)
